import Mathlib

/-!
Verification of the SecureEval core against its specification.

The definitions below are shallow embeddings of the TypeScript/JavaScript
sources of the repository:
* `src/services/AccessControlService.ts` (RBAC matrix and `checkAccess`),
* `server/middleware/accessControl.js` (server-side matrix, `checkPermission`,
  `checkOwnership`),
* `server/routes` project router (`/evaluate`, `/verify-publish`, `DELETE /:id`),
* `services/CryptoService.ts` (base64 conversions and the hybrid pipeline),
* the dashboard handlers that compose sealing, unsealing and signing.

MongoDB collections are modelled as association lists keyed by `Nat` ids
(`updateOne` updates the first matching entry, `deleteOne` deletes it,
`insertOne` appends with a fresh id).  JavaScript truthiness of optional
string fields (`undefined` and `""` are both falsy) is modelled explicitly.
-/

set_option maxRecDepth 4000

namespace SecureEval

/-! ## Frontend access control (`src/services/AccessControlService.ts`) -/

inductive UserRole
  | student
  | reviewer
  | admin
deriving DecidableEq

inductive ResourceType
  | academicArtifacts
  | assessmentMetrics
  | institutionalRecords
deriving DecidableEq

inductive Action
  | create
  | read
  | update
  | delete
  | sign
  | verify
deriving DecidableEq

/-- The `RBAC_MATRIX` constant of `AccessControlService.ts`: for each role and
resource type, the list of allowed actions. -/
def RBAC_MATRIX : UserRole → ResourceType → List Action
  | .student, .academicArtifacts => [.create, .read]
  | .student, .assessmentMetrics => []
  | .student, .institutionalRecords => [.read]
  | .reviewer, .academicArtifacts => [.read]
  | .reviewer, .assessmentMetrics => [.create, .read, .sign]
  | .reviewer, .institutionalRecords => []
  | .admin, .academicArtifacts => [.read, .delete]
  | .admin, .assessmentMetrics => [.read, .verify]
  | .admin, .institutionalRecords => [.create, .update, .read, .delete]

/-- Embedding of `AccessControlService.hasPermission`: matrix membership test. -/
def hasPermission (role : UserRole) (resource : ResourceType) (action : Action) : Bool :=
  decide (action ∈ RBAC_MATRIX role resource)

/-- The `AccessContext` interface: caller id, role and the optional
ownership/assignment metadata of the resource. -/
structure AccessContext where
  userId : String
  role : UserRole
  resourceOwnerId : Option String
  assignedReviewerId : Option String
deriving DecidableEq

/-- The `AccessDecision` interface (the `policy` description string, pure
documentation text, is not modelled). -/
structure AccessDecision where
  allowed : Bool
  reason : Option String
deriving DecidableEq

/-- JavaScript truthiness of an optional string field: `undefined` and the
empty string are falsy, every other string is truthy. -/
def optTruthy : Option String → Bool
  | none => false
  | some s => decide (s ≠ "")

def roleName : UserRole → String
  | .student => "student"
  | .reviewer => "reviewer"
  | .admin => "admin"

def resourceName : ResourceType → String
  | .academicArtifacts => "academic_artifacts"
  | .assessmentMetrics => "assessment_metrics"
  | .institutionalRecords => "institutional_records"

def actionName : Action → String
  | .create => "create"
  | .read => "read"
  | .update => "update"
  | .delete => "delete"
  | .sign => "sign"
  | .verify => "verify"

/-- Embedding of `AccessControlService.checkAccess`: step 1 matrix lookup, step 2 ownership
check for students on artifacts/records, step 3 assignment check for reviewers
reading artifacts, step 4 allow. -/
def checkAccess (context : AccessContext) (resource : ResourceType) (action : Action) :
    AccessDecision :=
  if ¬ hasPermission context.role resource action then
    { allowed := false,
      reason := some ("Role " ++ roleName context.role ++ " does not have " ++
        actionName action ++ " permission on " ++ resourceName resource) }
  else if context.role = .student ∧
      (resource = .academicArtifacts ∨ resource = .institutionalRecords) ∧
      optTruthy context.resourceOwnerId ∧ context.resourceOwnerId ≠ some context.userId then
    { allowed := false,
      reason := some "Students can only access their own artifacts and records" }
  else if context.role = .reviewer ∧ resource = .academicArtifacts ∧ action = .read ∧
      optTruthy context.assignedReviewerId ∧
      context.assignedReviewerId ≠ some context.userId then
    { allowed := false,
      reason := some "Reviewers can only access assigned academic artifacts" }
  else
    { allowed := true, reason := none }

/-! ### Specification-side model of `checkAccess` (§4.3 of the spec) -/

/-- Modelled from the spec: the fixed role×resource→actions table of §4.3
(student: Artifact create/read, Record read; reviewer: Artifact read, Metric
create/read/sign; admin: Artifact read/delete, Metric read/verify, Record
create/read/update/delete). -/
def specMatrix : UserRole → ResourceType → List Action
  | .student, .academicArtifacts => [.create, .read]
  | .student, .assessmentMetrics => []
  | .student, .institutionalRecords => [.read]
  | .reviewer, .academicArtifacts => [.read]
  | .reviewer, .assessmentMetrics => [.create, .read, .sign]
  | .reviewer, .institutionalRecords => []
  | .admin, .academicArtifacts => [.read, .delete]
  | .admin, .assessmentMetrics => [.read, .verify]
  | .admin, .institutionalRecords => [.create, .update, .read, .delete]

/-- Modelled from the spec: an optional context field is "set" when it is
present and non-empty (the JavaScript notion of a set optional string field,
where an absent field and the empty string both mean "not provided"). -/
def isSet : Option String → Bool
  | none => false
  | some s => decide (s ≠ "")

/-- The outcome of the four-step `checkAccess` procedure of §4.3 of the spec:
the step at which a denial occurs, or allow. -/
inductive SpecStep
  | allow
  | denyRoleLacksAction
  | denyNotOwner
  | denyNotAssigned
deriving DecidableEq

/-- Modelled from the spec, §4.3: 1. matrix lookup, action not present → deny.
2. role=student, resource ∈ {Artifact, Record}, ownerId set and ≠ principal id
→ deny. 3. role=reviewer, resource=Artifact, action=read, assignedReviewerId
set and ≠ principal id → deny. 4. else allow. -/
def specCheckAccess (principalId : String) (role : UserRole) (resource : ResourceType)
    (action : Action) (ownerId assignedReviewerId : Option String) : SpecStep :=
  if ¬ decide (action ∈ specMatrix role resource) then .denyRoleLacksAction
  else if role = .student ∧
      (resource = .academicArtifacts ∨ resource = .institutionalRecords) ∧
      isSet ownerId ∧ ownerId ≠ some principalId then .denyNotOwner
  else if role = .reviewer ∧ resource = .academicArtifacts ∧ action = .read ∧
      isSet assignedReviewerId ∧ assignedReviewerId ≠ some principalId then .denyNotAssigned
  else .allow

/-- Mapping from the spec procedure's outcome to the concrete decision record
the code produces at that step. -/
def specStepDecision (role : UserRole) (resource : ResourceType) (action : Action) :
    SpecStep → AccessDecision
  | .allow => { allowed := true, reason := none }
  | .denyRoleLacksAction =>
      { allowed := false,
        reason := some ("Role " ++ roleName role ++ " does not have " ++
          actionName action ++ " permission on " ++ resourceName resource) }
  | .denyNotOwner =>
      { allowed := false,
        reason := some "Students can only access their own artifacts and records" }
  | .denyNotAssigned =>
      { allowed := false,
        reason := some "Reviewers can only access assigned academic artifacts" }

/-- C5: for every principal, resource type, action and context, `checkAccess`
returns exactly the decision of the spec's four-step procedure: deny when the
role×resource matrix lacks the action; else deny when role=student, the
resource is Artifact or Record, the context owner id is set and differs from
the principal's id; else deny when role=reviewer, resource=Artifact,
action=read, the assigned reviewer id is set and differs from the principal's
id; else allow. -/
theorem checkAccess_eq_spec (ctx : AccessContext) (resource : ResourceType)
    (action : Action) :
    checkAccess ctx resource action =
      specStepDecision ctx.role resource action
        (specCheckAccess ctx.userId ctx.role resource action
          ctx.resourceOwnerId ctx.assignedReviewerId) := by
  obtain ⟨uid, role, ownerId, assignedId⟩ := ctx
  cases role <;> cases resource <;> cases action <;>
    simp [checkAccess, specCheckAccess, specStepDecision, hasPermission,
      RBAC_MATRIX, specMatrix, isSet, optTruthy] <;>
    split_ifs <;> simp_all

/-- C10: when the context omits `resourceOwnerId` (resp. `assignedReviewerId`),
the ownership check for students (resp. the assignment check for reviewers) is
skipped entirely: any student with the matrix permission is allowed on an
artifact or record whose owner is not stated, and any reviewer may read an
artifact whose assigned reviewer is not stated. -/
theorem checkAccess_skips_absent_context :
    (∀ (ctx : AccessContext) (resource : ResourceType) (action : Action),
      ctx.role = .student → ctx.resourceOwnerId = none →
      (resource = .academicArtifacts ∨ resource = .institutionalRecords) →
      hasPermission .student resource action = true →
      (checkAccess ctx resource action).allowed = true) ∧
    (∀ ctx : AccessContext,
      ctx.role = .reviewer → ctx.assignedReviewerId = none →
      (checkAccess ctx .academicArtifacts .read).allowed = true) := by
  constructor
  · intro ctx resource action hrole howner hres hperm
    obtain ⟨uid, role, ownerId, assignedId⟩ := ctx
    rcases hres with h | h <;> subst h <;> cases action <;>
      simp_all [checkAccess, hasPermission, RBAC_MATRIX, optTruthy]
  · intro ctx hrole hassigned
    obtain ⟨uid, role, ownerId, assignedId⟩ := ctx
    simp_all [checkAccess, optTruthy, hasPermission, RBAC_MATRIX]

/-- Witness for C10 at concrete inputs: a student with no owner stated in the
context may read an academic artifact, and a reviewer with no assignment
stated may read an academic artifact. -/
theorem checkAccess_skips_absent_context_witness :
    (checkAccess ⟨"alice", .student, none, none⟩ .academicArtifacts .read).allowed = true ∧
    (checkAccess ⟨"rachel", .reviewer, none, none⟩ .academicArtifacts .read).allowed = true :=
  ⟨checkAccess_skips_absent_context.1 ⟨"alice", .student, none, none⟩
      .academicArtifacts .read rfl rfl (Or.inl rfl) (by decide),
    checkAccess_skips_absent_context.2 ⟨"rachel", .reviewer, none, none⟩ rfl rfl⟩

/-! ## Server-side model (`server/middleware/accessControl.js` and the
project router).

Mongo documents are modelled as records, collections as association lists
keyed by `Nat` object ids (`ObjectId` strings are represented by numbers; the
`ObjectId.isValid` guard of the delete route is therefore always satisfied and
not modelled).  `insertOne` appends a document under the fresh id `nextId`,
`updateOne` updates the first matching document, `deleteOne` removes it. -/

/-- The authenticated user attached to the request by the `authenticate`
middleware (decoded from the JWT). -/
structure ServerUser where
  userId : String
  email : String
  role : String
deriving DecidableEq

/-- The server-side `RBAC_MATRIX` of `accessControl.js` (roles, resources and
actions are plain strings there). -/
def serverMatrix : String → String → List String
  | "student", "project_file" => ["create", "read"]
  | "student", "final_result" => ["read"]
  | "reviewer", "project_file" => ["read"]
  | "reviewer", "evaluation_report" => ["create", "read", "sign"]
  | "admin", "project_file" => ["read", "delete"]
  | "admin", "evaluation_report" => ["read", "verify"]
  | "admin", "final_result" => ["create", "update", "read", "delete"]
  | _, _ => []

/-- Embedding of `hasPermission` of `accessControl.js`. -/
def serverHasPermission (role resource action : String) : Bool :=
  decide (action ∈ serverMatrix role resource)

/-- A project document of the `projects` collection (fields not touched by the
modelled routes — emails, timestamps, the encrypted payload — are omitted). -/
structure Project where
  studentId : String
  reviewerId : Option String
  title : String
  status : String
  evaluationId : Option Nat
  verified : Bool
  grade : Option String
deriving DecidableEq

/-- An evaluation document of the `evaluations` collection. -/
structure Evaluation where
  submissionId : Nat
  evaluatorId : String
  evaluatorEmail : String
  score : Int
  grading : Option String
  feedback : String
  signature : String
deriving DecidableEq

/-- The database state: the two collections and the next fresh object id. -/
structure DB where
  projects : List (Nat × Project)
  evaluations : List (Nat × Evaluation)
  nextId : Nat
deriving DecidableEq

/-- The JSON body of an HTTP response, together with its status code.  Routes
additionally return ids (`projectId`, `evaluationId`); those are derivable
from the state and not part of the shape compared here. -/
structure HttpResponse where
  status : Nat
  success : Bool
  error : Option String
  message : Option String
deriving DecidableEq

/-- Mongo `findOne` by object id: the first document with the given id. -/
def findDoc {α : Type} : List (Nat × α) → Nat → Option α
  | [], _ => none
  | (k, v) :: t, id => if k = id then some v else findDoc t id

/-- Mongo `updateOne` with a set clause: update the first document with the given id. -/
def updateFirst {α : Type} : List (Nat × α) → Nat → (α → α) → List (Nat × α)
  | [], _, _ => []
  | (k, v) :: t, id, f => if k = id then (k, f v) :: t else (k, v) :: updateFirst t id f

/-- Mongo `deleteOne`: remove the first document with the given id. -/
def deleteFirst {α : Type} : List (Nat × α) → Nat → List (Nat × α)
  | [], _ => []
  | (k, v) :: t, id => if k = id then t else (k, v) :: deleteFirst t id

/-- The request body of `POST /api/projects/evaluate`.  The route requires
`submissionId`, `score`, `feedback` and `signature` (JavaScript-truthy,
so an empty feedback or signature string also fails validation); `grading`
is optional. -/
structure EvalBody where
  submissionId : Option Nat
  score : Option Int
  grading : Option String
  feedback : Option String
  signature : Option String

/-- The `grading || score.toString()` fallback used when the evaluate route
stores the grade on the project. -/
def gradeOf (grading : Option String) (score : Int) : String :=
  match grading with
  | some g => if g = "" then toString score else g
  | none => toString score

/-- The route `POST /api/projects/evaluate` behind `checkPermission(EVALUATION_REPORT,
CREATE)`: validate the body, look the project up (404 when absent), insert an
evaluation document and set the project's status to `evaluated`, its
`evaluationId` to the new document and its grade.  The route performs no
check of the current status and no check for an existing evaluation. -/
def evaluateRoute (db : DB) (user : ServerUser) (body : EvalBody) : HttpResponse × DB :=
  if ¬ serverHasPermission user.role "evaluation_report" "create" then
    ({ status := 403, success := false, error := some "Forbidden",
       message := some ("Role " ++ user.role ++
         " does not have create permission on evaluation_report") }, db)
  else
    match body.submissionId, body.score, body.feedback, body.signature with
    | some sid, some score, some feedback, some signature =>
      if feedback = "" ∨ signature = "" then
        ({ status := 400, success := false,
           error := some "Missing required evaluation fields", message := none }, db)
      else
        match findDoc db.projects sid with
        | none =>
            ({ status := 404, success := false, error := some "Project not found",
               message := none }, db)
        | some _ =>
            let evalId := db.nextId
            let ev : Evaluation :=
              { submissionId := sid, evaluatorId := user.userId,
                evaluatorEmail := user.email, score := score, grading := body.grading,
                feedback := feedback, signature := signature }
            ({ status := 201, success := true, error := none,
               message := some "Evaluation submitted and signed successfully" },
             { projects := updateFirst db.projects sid (fun p =>
                 { p with status := "evaluated", evaluationId := some evalId,
                          grade := some (gradeOf body.grading score) }),
               evaluations := db.evaluations ++ [(evalId, ev)],
               nextId := db.nextId + 1 })
    | _, _, _, _ =>
        ({ status := 400, success := false,
           error := some "Missing required evaluation fields", message := none }, db)

/-- The route `POST /api/projects/verify-publish` (admin only): set `verified` and
`status := published` on the first document matching the id; 404 when no
document matched.  The route performs no check of the current status: the
stored signature is not verified here (that happens client-side in the admin
dashboard) and a Pending project is published just the same. -/
def verifyPublishRoute (db : DB) (user : ServerUser) (projectId : Option Nat) :
    HttpResponse × DB :=
  if user.role ≠ "admin" then
    ({ status := 403, success := false, error := some "Admin only", message := none }, db)
  else
    match projectId with
    | none =>
        ({ status := 400, success := false, error := some "Project ID required",
           message := none }, db)
    | some pid =>
      match findDoc db.projects pid with
      | none =>
          ({ status := 404, success := false, error := some "Project not found",
             message := none }, db)
      | some _ =>
          ({ status := 200, success := true, error := none,
             message := some "Result verified and published" },
           { db with projects := updateFirst db.projects pid (fun p =>
               { p with verified := true, status := "published" }) })

/-- The route `DELETE /api/projects/:id`: 404 when the project is missing; 403 when the
caller is neither the owning student nor an admin; 403 when the project is
`evaluated` and the caller is not an admin; otherwise delete the project and,
when an `evaluationId` is attached, the evaluation document as well. -/
def deleteRoute (db : DB) (user : ServerUser) (id : Nat) : HttpResponse × DB :=
  match findDoc db.projects id with
  | none =>
      ({ status := 404, success := false, error := some "Project not found",
         message := none }, db)
  | some project =>
    if project.studentId ≠ user.userId ∧ user.role ≠ "admin" then
      ({ status := 403, success := false,
         error := some "Forbidden - You can only delete your own projects",
         message := none }, db)
    else if project.status = "evaluated" ∧ user.role ≠ "admin" then
      ({ status := 403, success := false,
         error := some "Forbidden - Cannot delete evaluated projects",
         message := none }, db)
    else
      let db1 : DB := { db with projects := deleteFirst db.projects id }
      let db2 : DB :=
        match project.evaluationId with
        | some eid => { db1 with evaluations := deleteFirst db1.evaluations eid }
        | none => db1
      ({ status := 200, success := true, error := none,
         message := some "Project deleted successfully" }, db2)

/-- Outcome of the `checkOwnership` middleware: pass the request on, or halt
with a response. -/
inductive MiddlewareResult
  | next
  | halt (r : HttpResponse)
deriving DecidableEq

/-- The `checkOwnership` middleware of `accessControl.js`: admins bypass the
check; a truthy resource owner id differing from the caller's id is answered
with 404 "Resource not found" to prevent information disclosure. -/
def checkOwnership (user : ServerUser) (resourceOwnerId : Option String) :
    MiddlewareResult :=
  if user.role = "admin" then .next
  else if optTruthy resourceOwnerId ∧ resourceOwnerId ≠ some user.userId then
    .halt { status := 404, success := false, error := some "Resource not found",
            message := none }
  else .next

/-! ### Collection lemmas -/

theorem findDoc_updateFirst_self {α : Type} (l : List (Nat × α)) (id : Nat) (f : α → α) :
    findDoc (updateFirst l id f) id = (findDoc l id).map f := by
  induction l with
  | nil => simp [findDoc, updateFirst]
  | cons hd t ih =>
    obtain ⟨k, v⟩ := hd
    by_cases h : k = id
    · subst h; simp [findDoc, updateFirst]
    · simp [findDoc, updateFirst, h, ih]

theorem updateFirst_eq_self {α : Type} (l : List (Nat × α)) (id : Nat) (f : α → α)
    (h : ∀ v, findDoc l id = some v → f v = v) : updateFirst l id f = l := by
  induction l with
  | nil => simp [updateFirst]
  | cons hd t ih =>
    obtain ⟨k, v⟩ := hd
    by_cases hk : k = id
    · subst hk
      have hv : f v = v := h v (by simp [findDoc])
      simp [updateFirst, hv]
    · simp only [updateFirst, if_neg hk]
      rw [ih (fun w hw => h w (by simp [findDoc, hk, hw]))]

theorem findDoc_eq_none_of_not_mem {α : Type} (l : List (Nat × α)) (id : Nat)
    (h : id ∉ l.map Prod.fst) : findDoc l id = none := by
  induction l with
  | nil => simp [findDoc]
  | cons hd t ih =>
    obtain ⟨k, v⟩ := hd
    simp only [List.map_cons, List.mem_cons, not_or] at h
    have hk : ¬ k = id := fun hk => h.1 hk.symm
    simp [findDoc, hk, ih h.2]

theorem findDoc_deleteFirst_self {α : Type} (l : List (Nat × α)) (id : Nat)
    (h : (l.map Prod.fst).Nodup) : findDoc (deleteFirst l id) id = none := by
  induction l with
  | nil => simp [findDoc, deleteFirst]
  | cons hd t ih =>
    obtain ⟨k, v⟩ := hd
    simp only [List.map_cons, List.nodup_cons] at h
    by_cases hk : k = id
    · subst hk
      simp only [deleteFirst, if_pos rfl]
      exact findDoc_eq_none_of_not_mem t k h.1
    · simp [deleteFirst, hk, findDoc, ih h.2]

/-! ### Claims about the workflow routes -/

/-- Counterexample for C1: a submission that is already `evaluated` and has an
evaluation attached.  The evaluate route nevertheless answers 201 success and
a second evaluation document for the same submission now exists — there is no
`InvalidStateTransition` failure and the one-evaluation-per-submission
invariant does not hold. -/
theorem evaluate_no_guard_counterexample :
    (evaluateRoute
        ⟨[(1, ⟨"stu1", some "rev1", "Proj", "evaluated", some 0, false, some "A"⟩)],
         [(0, ⟨1, "rev1", "rev@x.io", 0, some "A", "good work", "sig0"⟩)], 5⟩
        ⟨"rev1", "rev@x.io", "reviewer"⟩
        ⟨some 1, some 0, some "B", some "still fine", some "sig1"⟩).1.status = 201 ∧
    (evaluateRoute
        ⟨[(1, ⟨"stu1", some "rev1", "Proj", "evaluated", some 0, false, some "A"⟩)],
         [(0, ⟨1, "rev1", "rev@x.io", 0, some "A", "good work", "sig0"⟩)], 5⟩
        ⟨"rev1", "rev@x.io", "reviewer"⟩
        ⟨some 1, some 0, some "B", some "still fine", some "sig1"⟩).1.success = true ∧
    ((evaluateRoute
        ⟨[(1, ⟨"stu1", some "rev1", "Proj", "evaluated", some 0, false, some "A"⟩)],
         [(0, ⟨1, "rev1", "rev@x.io", 0, some "A", "good work", "sig0"⟩)], 5⟩
        ⟨"rev1", "rev@x.io", "reviewer"⟩
        ⟨some 1, some 0, some "B", some "still fine", some "sig1"⟩).2.evaluations.filter
          (fun e => e.2.submissionId == 1)).length = 2 := by
  decide

/-- C1 as amended: the evaluate route checks only that the caller's role has
the `create evaluation_report` permission, that the body is complete and that
the submission exists.  It does not inspect the submission's status or an
already-attached evaluation: for every existing submission, whatever its
status, a well-formed evaluate call succeeds with 201, appends one more
evaluation document, and repoints the submission at the new evaluation. -/
theorem evaluate_succeeds_regardless_of_status (db : DB) (user : ServerUser)
    (body : EvalBody) (sid : Nat) (sc : Int) (fb sg : String) (proj : Project)
    (hperm : serverHasPermission user.role "evaluation_report" "create" = true)
    (hsid : body.submissionId = some sid) (hsc : body.score = some sc)
    (hfb : body.feedback = some fb) (hsg : body.signature = some sg)
    (hfb2 : fb ≠ "") (hsg2 : sg ≠ "")
    (hproj : findDoc db.projects sid = some proj) :
    (evaluateRoute db user body).1.status = 201 ∧
    (evaluateRoute db user body).1.success = true ∧
    (evaluateRoute db user body).2.evaluations.length = db.evaluations.length + 1 ∧
    findDoc (evaluateRoute db user body).2.projects sid =
      some { proj with status := "evaluated", evaluationId := some db.nextId,
                       grade := some (gradeOf body.grading sc) } := by
  simp only [evaluateRoute, hsid, hsc, hfb, hsg, hperm]
  simp [hfb2, hsg2, hproj, findDoc_updateFirst_self]

/-- Witness for the amended C1 at a concrete pending submission. -/
theorem evaluate_succeeds_regardless_of_status_witness :
    (evaluateRoute
        ⟨[(3, ⟨"stu9", none, "P", "pending", none, false, none⟩)], [], 4⟩
        ⟨"rev9", "r9@x.io", "reviewer"⟩
        ⟨some 3, some 7, none, some "ok", some "sg"⟩).1.status = 201 ∧
    (evaluateRoute
        ⟨[(3, ⟨"stu9", none, "P", "pending", none, false, none⟩)], [], 4⟩
        ⟨"rev9", "r9@x.io", "reviewer"⟩
        ⟨some 3, some 7, none, some "ok", some "sg"⟩).2.evaluations.length = 0 + 1 :=
  ⟨(evaluate_succeeds_regardless_of_status
      ⟨[(3, ⟨"stu9", none, "P", "pending", none, false, none⟩)], [], 4⟩
      ⟨"rev9", "r9@x.io", "reviewer"⟩ ⟨some 3, some 7, none, some "ok", some "sg"⟩
      3 7 "ok" "sg" ⟨"stu9", none, "P", "pending", none, false, none⟩
      (by decide) rfl rfl rfl rfl (by decide) (by decide) (by decide)).1,
   (evaluate_succeeds_regardless_of_status
      ⟨[(3, ⟨"stu9", none, "P", "pending", none, false, none⟩)], [], 4⟩
      ⟨"rev9", "r9@x.io", "reviewer"⟩ ⟨some 3, some 7, none, some "ok", some "sg"⟩
      3 7 "ok" "sg" ⟨"stu9", none, "P", "pending", none, false, none⟩
      (by decide) rfl rfl rfl rfl (by decide) (by decide) (by decide)).2.2.1⟩

/-- Counterexample for C2: a `pending` submission with no evaluation.  An
admin call to verify-publish succeeds (200) and the submission becomes
`published` and `verified` — the call does not fail. -/
theorem verifyPublish_no_guard_counterexample :
    (verifyPublishRoute
        ⟨[(1, ⟨"stu1", none, "Proj", "pending", none, false, none⟩)], [], 2⟩
        ⟨"adm", "a@x.io", "admin"⟩ (some 1)).1.success = true ∧
    (verifyPublishRoute
        ⟨[(1, ⟨"stu1", none, "Proj", "pending", none, false, none⟩)], [], 2⟩
        ⟨"adm", "a@x.io", "admin"⟩ (some 1)).1.status = 200 ∧
    findDoc (verifyPublishRoute
        ⟨[(1, ⟨"stu1", none, "Proj", "pending", none, false, none⟩)], [], 2⟩
        ⟨"adm", "a@x.io", "admin"⟩ (some 1)).2.projects 1 =
      some ⟨"stu1", none, "Proj", "published", none, true, none⟩ := by
  decide

/-- C2 as amended: the verify-publish route checks only that the caller is an
admin and that the submission exists; it performs no status check, so every
existing submission — including a Pending one with no Evaluation — is
published by the call. -/
theorem verifyPublish_publishes_any_status (db : DB) (user : ServerUser)
    (pid : Nat) (proj : Project)
    (hrole : user.role = "admin")
    (hproj : findDoc db.projects pid = some proj) :
    (verifyPublishRoute db user (some pid)).1 =
      { status := 200, success := true, error := none,
        message := some "Result verified and published" } ∧
    findDoc (verifyPublishRoute db user (some pid)).2.projects pid =
      some { proj with verified := true, status := "published" } := by
  simp [verifyPublishRoute, hrole, hproj, findDoc_updateFirst_self]

/-- Witness for the amended C2 at a concrete pending submission. -/
theorem verifyPublish_publishes_any_status_witness :
    (verifyPublishRoute
        ⟨[(2, ⟨"stu2", none, "Q", "pending", none, false, none⟩)], [], 3⟩
        ⟨"adm2", "a2@x.io", "admin"⟩ (some 2)).1 =
      { status := 200, success := true, error := none,
        message := some "Result verified and published" } :=
  (verifyPublish_publishes_any_status
      ⟨[(2, ⟨"stu2", none, "Q", "pending", none, false, none⟩)], [], 3⟩
      ⟨"adm2", "a2@x.io", "admin"⟩ 2 ⟨"stu2", none, "Q", "pending", none, false, none⟩
      rfl (by decide)).1

/-- C8: verify-publish is an idempotent no-op on an already published
submission: the call succeeds without error and leaves the whole database
state unchanged, and in general a second call after a first one returns the
same response and the same final state (`verified = true`,
`status = published`) as the first. -/
theorem verifyPublish_idempotent :
    (∀ (db : DB) (user : ServerUser) (pid : Nat) (proj : Project),
      user.role = "admin" → findDoc db.projects pid = some proj →
      proj.status = "published" → proj.verified = true →
      verifyPublishRoute db user (some pid) =
        ({ status := 200, success := true, error := none,
           message := some "Result verified and published" }, db)) ∧
    (∀ (db : DB) (user : ServerUser) (pid : Nat) (proj : Project),
      user.role = "admin" → findDoc db.projects pid = some proj →
      verifyPublishRoute (verifyPublishRoute db user (some pid)).2 user (some pid) =
        verifyPublishRoute db user (some pid)) := by
  have publish_fixed : ∀ (db : DB) (user : ServerUser) (pid : Nat) (proj : Project),
      user.role = "admin" → findDoc db.projects pid = some proj →
      proj.status = "published" → proj.verified = true →
      verifyPublishRoute db user (some pid) =
        ({ status := 200, success := true, error := none,
           message := some "Result verified and published" }, db) := by
    intro db user pid proj hrole hproj hstatus hverified
    have hfix : updateFirst db.projects pid
        (fun p => { p with verified := true, status := "published" }) = db.projects := by
      apply updateFirst_eq_self
      intro v hv
      rw [hproj] at hv
      cases hv
      obtain ⟨a, b, c, d, e, f, g⟩ := proj
      simp only at hstatus hverified
      simp [hstatus, hverified]
    simp [verifyPublishRoute, hrole, hproj, hfix]
  refine ⟨publish_fixed, ?_⟩
  intro db user pid proj hrole hproj
  have h1 : findDoc (verifyPublishRoute db user (some pid)).2.projects pid =
      some { proj with verified := true, status := "published" } := by
    simp [verifyPublishRoute, hrole, hproj, findDoc_updateFirst_self]
  have h2 := publish_fixed (verifyPublishRoute db user (some pid)).2 user pid
    { proj with verified := true, status := "published" } hrole h1 rfl rfl
  rw [h2]
  simp [verifyPublishRoute, hrole, hproj]

/-- Witness for C8: publishing an already published submission at a concrete
state succeeds and changes nothing. -/
theorem verifyPublish_idempotent_witness :
    verifyPublishRoute
        ⟨[(4, ⟨"stu4", none, "R", "published", none, true, some "A"⟩)], [], 5⟩
        ⟨"adm4", "a4@x.io", "admin"⟩ (some 4) =
      ({ status := 200, success := true, error := none,
         message := some "Result verified and published" },
       ⟨[(4, ⟨"stu4", none, "R", "published", none, true, some "A"⟩)], [], 5⟩) :=
  verifyPublish_idempotent.1
    ⟨[(4, ⟨"stu4", none, "R", "published", none, true, some "A"⟩)], [], 5⟩
    ⟨"adm4", "a4@x.io", "admin"⟩ 4 ⟨"stu4", none, "R", "published", none, true, some "A"⟩
    rfl (by decide) rfl rfl

/-- Counterexample for C4: a `published` submission owned by "alice".  Alice,
a plain student, deletes it successfully (200), the project disappears and the
attached evaluation is cascaded away — a delete of a Published submission is
not rejected. -/
theorem delete_published_counterexample :
    (deleteRoute
        ⟨[(1, ⟨"alice", some "rev1", "Proj", "published", some 0, true, some "A"⟩)],
         [(0, ⟨1, "rev1", "r@x.io", 0, some "A", "fine", "sig"⟩)], 2⟩
        ⟨"alice", "al@x.io", "student"⟩ 1).1.status = 200 ∧
    (deleteRoute
        ⟨[(1, ⟨"alice", some "rev1", "Proj", "published", some 0, true, some "A"⟩)],
         [(0, ⟨1, "rev1", "r@x.io", 0, some "A", "fine", "sig"⟩)], 2⟩
        ⟨"alice", "al@x.io", "student"⟩ 1).1.success = true ∧
    findDoc (deleteRoute
        ⟨[(1, ⟨"alice", some "rev1", "Proj", "published", some 0, true, some "A"⟩)],
         [(0, ⟨1, "rev1", "r@x.io", 0, some "A", "fine", "sig"⟩)], 2⟩
        ⟨"alice", "al@x.io", "student"⟩ 1).2.projects 1 = none ∧
    findDoc (deleteRoute
        ⟨[(1, ⟨"alice", some "rev1", "Proj", "published", some 0, true, some "A"⟩)],
         [(0, ⟨1, "rev1", "r@x.io", 0, some "A", "fine", "sig"⟩)], 2⟩
        ⟨"alice", "al@x.io", "student"⟩ 1).2.evaluations 0 = none := by
  decide

/-- C4 as amended: the delete route rejects a non-admin caller who is not the
owner and a non-admin owner while the submission is `evaluated`; every other
caller with an existing submission succeeds — in particular the owner may
delete a Pending or a Published submission and an admin may delete from any
status, Published included.  A successful deletion removes the project and
cascades to any attached evaluation document. -/
theorem delete_guards :
    (∀ (db : DB) (user : ServerUser) (id : Nat),
      findDoc db.projects id = none →
      deleteRoute db user id =
        ({ status := 404, success := false, error := some "Project not found",
           message := none }, db)) ∧
    (∀ (db : DB) (user : ServerUser) (id : Nat) (proj : Project),
      findDoc db.projects id = some proj →
      proj.studentId ≠ user.userId → user.role ≠ "admin" →
      deleteRoute db user id =
        ({ status := 403, success := false,
           error := some "Forbidden - You can only delete your own projects",
           message := none }, db)) ∧
    (∀ (db : DB) (user : ServerUser) (id : Nat) (proj : Project),
      findDoc db.projects id = some proj →
      proj.studentId = user.userId → user.role ≠ "admin" →
      proj.status = "evaluated" →
      deleteRoute db user id =
        ({ status := 403, success := false,
           error := some "Forbidden - Cannot delete evaluated projects",
           message := none }, db)) ∧
    (∀ (db : DB) (user : ServerUser) (id : Nat) (proj : Project),
      findDoc db.projects id = some proj →
      (user.role = "admin" ∨ (proj.studentId = user.userId ∧ proj.status ≠ "evaluated")) →
      (deleteRoute db user id).1 =
        { status := 200, success := true, error := none,
          message := some "Project deleted successfully" } ∧
      ((db.projects.map Prod.fst).Nodup →
        findDoc (deleteRoute db user id).2.projects id = none) ∧
      (∀ eid, proj.evaluationId = some eid → (db.evaluations.map Prod.fst).Nodup →
        findDoc (deleteRoute db user id).2.evaluations eid = none)) := by
  refine ⟨?_, ?_, ?_, ?_⟩
  · intro db user id hnone
    simp [deleteRoute, hnone]
  · intro db user id proj hproj hown hrole
    simp [deleteRoute, hproj, hown, hrole]
  · intro db user id proj hproj hown hrole hstatus
    simp [deleteRoute, hproj, hown, hrole, hstatus]
  · intro db user id proj hproj hok
    have hguard1 : ¬ (proj.studentId ≠ user.userId ∧ user.role ≠ "admin") := by
      rcases hok with h | h
      · exact fun hc => hc.2 h
      · exact fun hc => hc.1 h.1
    have hguard2 : ¬ (proj.status = "evaluated" ∧ user.role ≠ "admin") := by
      rcases hok with h | h
      · exact fun hc => hc.2 h
      · exact fun hc => h.2 hc.1
    refine ⟨?_, ?_, ?_⟩
    · simp only [deleteRoute, hproj, if_neg hguard1, if_neg hguard2]
    · intro hnodup
      simp only [deleteRoute, hproj, if_neg hguard1, if_neg hguard2]
      cases proj.evaluationId <;> simp [findDoc_deleteFirst_self _ _ hnodup]
    · intro eid heid hnodup
      simp only [deleteRoute, hproj, if_neg hguard1, if_neg hguard2, heid]
      simp [findDoc_deleteFirst_self _ _ hnodup]

/-- Witness for the amended C4: an admin deletes an evaluated submission with
an attached evaluation; the guard answers 200 and both documents are gone. -/
theorem delete_guards_witness :
    (deleteRoute
        ⟨[(6, ⟨"stu6", some "rev6", "S", "evaluated", some 5, false, some "B"⟩)],
         [(5, ⟨6, "rev6", "r6@x.io", 0, some "B", "meh", "sg"⟩)], 7⟩
        ⟨"adm6", "a6@x.io", "admin"⟩ 6).1 =
      { status := 200, success := true, error := none,
        message := some "Project deleted successfully" } ∧
    findDoc (deleteRoute
        ⟨[(6, ⟨"stu6", some "rev6", "S", "evaluated", some 5, false, some "B"⟩)],
         [(5, ⟨6, "rev6", "r6@x.io", 0, some "B", "meh", "sg"⟩)], 7⟩
        ⟨"adm6", "a6@x.io", "admin"⟩ 6).2.evaluations 5 = none := by
  have h := delete_guards.2.2.2
    ⟨[(6, ⟨"stu6", some "rev6", "S", "evaluated", some 5, false, some "B"⟩)],
     [(5, ⟨6, "rev6", "r6@x.io", 0, some "B", "meh", "sg"⟩)], 7⟩
    ⟨"adm6", "a6@x.io", "admin"⟩ 6
    ⟨"stu6", some "rev6", "S", "evaluated", some 5, false, some "B"⟩
    (by decide) (Or.inl rfl)
  exact ⟨h.1, h.2.2 5 rfl (by decide)⟩

/-- Counterexample for C9: with a project owned by "alice" in the store, the
student "bob" receives 403 "Forbidden - You can only delete your own projects"
when deleting it, but 404 "Project not found" for a missing id — the two
responses differ, so an ownership denial on delete is distinguishable from a
missing resource. -/
theorem ownership_denial_distinguishable_counterexample :
    (deleteRoute
        ⟨[(1, ⟨"alice", none, "Proj", "pending", none, false, none⟩)], [], 2⟩
        ⟨"bob", "bob@x.io", "student"⟩ 1).1 =
      { status := 403, success := false,
        error := some "Forbidden - You can only delete your own projects",
        message := none } ∧
    (deleteRoute
        ⟨[(1, ⟨"alice", none, "Proj", "pending", none, false, none⟩)], [], 2⟩
        ⟨"bob", "bob@x.io", "student"⟩ 9).1 =
      { status := 404, success := false, error := some "Project not found",
        message := none } ∧
    (deleteRoute
        ⟨[(1, ⟨"alice", none, "Proj", "pending", none, false, none⟩)], [], 2⟩
        ⟨"bob", "bob@x.io", "student"⟩ 1).1 ≠
    (deleteRoute
        ⟨[(1, ⟨"alice", none, "Proj", "pending", none, false, none⟩)], [], 2⟩
        ⟨"bob", "bob@x.io", "student"⟩ 9).1 := by
  decide

/-- C9 as amended: denials issued by the `checkOwnership` middleware are
NotFound-shaped — every non-admin whose id differs from a truthy resource
owner id receives exactly 404 "Resource not found" — but the delete route
surfaces its own ownership denial as a 403 Forbidden with a distinct message,
so there the caller can distinguish "not yours" from "no such resource". -/
theorem ownership_denial_shapes :
    (∀ (user : ServerUser) (ownerId : Option String),
      user.role ≠ "admin" → optTruthy ownerId = true → ownerId ≠ some user.userId →
      checkOwnership user ownerId =
        .halt { status := 404, success := false, error := some "Resource not found",
                message := none }) ∧
    (∀ (db : DB) (user : ServerUser) (id : Nat) (proj : Project),
      findDoc db.projects id = some proj →
      proj.studentId ≠ user.userId → user.role ≠ "admin" →
      (deleteRoute db user id).1.status = 403) := by
  constructor
  · intro user ownerId hrole htruthy hne
    simp [checkOwnership, hrole, htruthy, hne]
  · intro db user id proj hproj hown hrole
    simp [deleteRoute, hproj, hown, hrole]

/-- Witness for the amended C9 at concrete inputs: the middleware halts with
the NotFound-shaped response for a non-owner, and the delete route answers 403
for a non-owner. -/
theorem ownership_denial_shapes_witness :
    checkOwnership ⟨"bob2", "b2@x.io", "student"⟩ (some "carol") =
      .halt { status := 404, success := false, error := some "Resource not found",
              message := none } ∧
    (deleteRoute
        ⟨[(8, ⟨"carol", none, "W", "pending", none, false, none⟩)], [], 9⟩
        ⟨"bob2", "b2@x.io", "student"⟩ 8).1.status = 403 :=
  ⟨ownership_denial_shapes.1 ⟨"bob2", "b2@x.io", "student"⟩ (some "carol")
      (by decide) (by decide) (by decide),
   ownership_denial_shapes.2
      ⟨[(8, ⟨"carol", none, "W", "pending", none, false, none⟩)], [], 9⟩
      ⟨"bob2", "b2@x.io", "student"⟩ 8 ⟨"carol", none, "W", "pending", none, false, none⟩
      (by decide) (by decide) (by decide)⟩

/-! ## CryptoService (`src/services/CryptoService.ts`)

`arrayBufferToBase64` turns a byte buffer into a Latin-1 string and applies
the browser's `btoa`; `base64ToArrayBuffer` applies `atob` and reads the
bytes back.  `btoa`/`atob` are the standard base64 encoding with `=` padding,
modelled here concretely over byte lists (`List Nat`, each entry < 256).  The
Web Crypto primitives (AES-GCM, RSA-OAEP, RSA-PSS, SHA-256) are external to
the repository; they are modelled as abstract operations packaged in
`CryptoPrims`, and theorems assume exactly the inverse properties the spec
requires of them (§6). -/

/-- The base64 alphabet, in order. -/
def b64Chars : List Char :=
  "ABCDEFGHIJKLMNOPQRSTUVWXYZabcdefghijklmnopqrstuvwxyz0123456789+/".toList

/-- The character for a 6-bit group. -/
def encodeChar (n : Nat) : Char := b64Chars.getD n '?'

/-- The 6-bit group for a base64 character. -/
def decodeChar (c : Char) : Nat := b64Chars.indexOf c

/-- Standard base64 encoding of a byte list, three bytes to four characters,
with `=` padding (the behaviour of `btoa` on a byte string). -/
def b64encodeL : List Nat → List Char
  | [] => []
  | [a] => [encodeChar (a / 4), encodeChar (a % 4 * 16), '=', '=']
  | [a, b] => [encodeChar (a / 4), encodeChar (a % 4 * 16 + b / 16),
               encodeChar (b % 16 * 4), '=']
  | a :: b :: c :: rest =>
      encodeChar (a / 4) :: encodeChar (a % 4 * 16 + b / 16) ::
      encodeChar (b % 16 * 4 + c / 64) :: encodeChar (c % 64) :: b64encodeL rest

/-- Standard base64 decoding, four characters to three bytes, honouring `=`
padding (the behaviour of `atob`). -/
def b64decodeL : List Char → List Nat
  | c1 :: c2 :: c3 :: c4 :: rest =>
      if c3 = '=' then
        [decodeChar c1 * 4 + decodeChar c2 / 16]
      else if c4 = '=' then
        [decodeChar c1 * 4 + decodeChar c2 / 16,
         decodeChar c2 % 16 * 16 + decodeChar c3 / 4]
      else
        (decodeChar c1 * 4 + decodeChar c2 / 16) ::
        (decodeChar c2 % 16 * 16 + decodeChar c3 / 4) ::
        (decodeChar c3 % 4 * 64 + decodeChar c4) ::
        b64decodeL rest
  | _ => []

theorem decodeChar_encodeChar : ∀ n < 64, decodeChar (encodeChar n) = n := by decide

theorem encodeChar_ne_pad : ∀ n < 64, encodeChar n ≠ '=' := by decide

/-- Decoding inverts encoding on byte lists. -/
theorem b64_roundtrip : ∀ (l : List Nat), (∀ x ∈ l, x < 256) →
    b64decodeL (b64encodeL l) = l
  | [], _ => by simp [b64encodeL, b64decodeL]
  | [a], h => by
      have ha : a < 256 := h a (by simp)
      have h1 : a / 4 < 64 := by omega
      have h2 : a % 4 * 16 < 64 := by omega
      simp [b64encodeL, b64decodeL, decodeChar_encodeChar _ h1,
        decodeChar_encodeChar _ h2]
      omega
  | [a, b], h => by
      have ha : a < 256 := h a (by simp)
      have hb : b < 256 := h b (by simp)
      have h1 : a / 4 < 64 := by omega
      have h2 : a % 4 * 16 + b / 16 < 64 := by omega
      have h3 : b % 16 * 4 < 64 := by omega
      simp [b64encodeL, b64decodeL, encodeChar_ne_pad _ h3,
        decodeChar_encodeChar _ h1, decodeChar_encodeChar _ h2,
        decodeChar_encodeChar _ h3]
      omega
  | a :: b :: c :: rest, h => by
      have ha : a < 256 := h a (by simp)
      have hb : b < 256 := h b (by simp)
      have hc : c < 256 := h c (by simp)
      have h1 : a / 4 < 64 := by omega
      have h2 : a % 4 * 16 + b / 16 < 64 := by omega
      have h3 : b % 16 * 4 + c / 64 < 64 := by omega
      have h4 : c % 64 < 64 := by omega
      have ih := b64_roundtrip rest (fun x hx => h x (by simp [hx]))
      simp [b64encodeL, b64decodeL, encodeChar_ne_pad _ h3, encodeChar_ne_pad _ h4,
        decodeChar_encodeChar _ h1, decodeChar_encodeChar _ h2,
        decodeChar_encodeChar _ h3, decodeChar_encodeChar _ h4, ih]
      omega

/-- Embedding of `CryptoService.arrayBufferToBase64`: bytes → Latin-1 string → `btoa`. -/
def arrayBufferToBase64 (buffer : List Nat) : String := ⟨b64encodeL buffer⟩

/-- Embedding of `CryptoService.base64ToArrayBuffer`: `atob` → byte list. -/
def base64ToArrayBuffer (s : String) : List Nat := b64decodeL s.data

/-- The Web Crypto primitives used by `CryptoService`, abstracted: `K` is an
AES-GCM key, `PK`/`SK` an RSA-OAEP key pair.  `aesEnc key iv data` is the
ciphertext-plus-tag of `subtle.encrypt`, `aesDec` the (fallible) decryption,
`rsaWrap`/`rsaUnwrap` are `subtle.wrapKey`/`subtle.unwrapKey` on the raw AES
key, and `sha256` the digest bytes of `subtle.digest` over a string. -/
structure CryptoPrims (K PK SK : Type) where
  aesEnc : K → List Nat → List Nat → List Nat
  aesDec : K → List Nat → List Nat → Option (List Nat)
  rsaWrap : PK → K → List Nat
  rsaUnwrap : SK → List Nat → Option K
  sha256 : String → List Nat

/-- Embedding of `CryptoService.encryptData` (the source generates the random 96-bit IV
internally with `getRandomValues`; here it is a parameter): returns the
base64-encoded IV and ciphertext. -/
def encryptData {K PK SK : Type} (P : CryptoPrims K PK SK) (data : List Nat) (key : K)
    (iv : List Nat) : String × String :=
  (arrayBufferToBase64 iv, arrayBufferToBase64 (P.aesEnc key iv data))

/-- Embedding of `CryptoService.decryptData`: decode both base64 strings and decrypt. -/
def decryptData {K PK SK : Type} (P : CryptoPrims K PK SK)
    (cipherTextBase64 ivBase64 : String) (key : K) : Option (List Nat) :=
  P.aesDec key (base64ToArrayBuffer ivBase64) (base64ToArrayBuffer cipherTextBase64)

/-- Embedding of `CryptoService.wrapKey`: RSA-OAEP wrap of the AES key, base64 encoded. -/
def wrapKey {K PK SK : Type} (P : CryptoPrims K PK SK) (aesKey : K) (rsaPublicKey : PK) :
    String :=
  arrayBufferToBase64 (P.rsaWrap rsaPublicKey aesKey)

/-- Embedding of `CryptoService.unwrapKey`: decode and RSA-OAEP unwrap. -/
def unwrapKey {K PK SK : Type} (P : CryptoPrims K PK SK) (wrappedKeyBase64 : String)
    (rsaPrivateKey : SK) : Option K :=
  P.rsaUnwrap rsaPrivateKey (base64ToArrayBuffer wrappedKeyBase64)

/-- Embedding of `CryptoService.hashData`: SHA-256 of a string, base64 encoded. -/
def hashData {K PK SK : Type} (P : CryptoPrims K PK SK) (data : String) : String :=
  arrayBufferToBase64 (P.sha256 data)

/-- The artifact record the submission modal persists: integrity hash,
base64 ciphertext, base64 wrapped key, base64 IV. -/
structure SealedSubmission where
  fileHash : String
  encryptedData : String
  encryptedKey : String
  iv : String
deriving DecidableEq

/-- The sealing pipeline of `NewSubmissionModal.handleSubmit`: hash the
base64 of the file buffer, AES-GCM encrypt the buffer under a fresh key and
IV, RSA-wrap the AES key under the reviewer's public key. -/
def sealSubmission {K PK SK : Type} (P : CryptoPrims K PK SK) (fileBuffer : List Nat)
    (aesKey : K) (iv : List Nat) (reviewerPubKey : PK) : SealedSubmission :=
  let integrityHash := hashData P (arrayBufferToBase64 fileBuffer)
  let e := encryptData P fileBuffer aesKey iv
  let encryptedKey := wrapKey P aesKey reviewerPubKey
  { fileHash := integrityHash, encryptedData := e.2, encryptedKey := encryptedKey,
    iv := e.1 }

/-- The unsealing pipeline of `ReviewerDashboard.handleDecryptAndDownload`
(steps 1–2): unwrap the AES key with the reviewer's private key, then decrypt
the ciphertext with the recovered key and the stored IV. -/
def unsealSubmission {K PK SK : Type} (P : CryptoPrims K PK SK) (s : SealedSubmission)
    (privateKey : SK) : Option (List Nat) :=
  match unwrapKey P s.encryptedKey privateKey with
  | none => none
  | some aesKey => decryptData P s.encryptedData s.iv aesKey

/-- C6: unsealing the result of sealing a byte string for a recipient's
public encryption key, with the matching private key, returns exactly the
original bytes — for every byte string, including the empty one — provided
the primitives have the inverse properties the spec demands of them
(authenticated decryption inverts encryption under the same key and IV, and
unwrapping with the matching private key inverts wrapping). -/
theorem unseal_seal_roundtrip {K PK SK : Type} (P : CryptoPrims K PK SK)
    (x iv : List Nat) (k : K) (pk : PK) (sk : SK)
    (hiv : ∀ b ∈ iv, b < 256)
    (henc : ∀ b ∈ P.aesEnc k iv x, b < 256)
    (hwrap : ∀ b ∈ P.rsaWrap pk k, b < 256)
    (hunwrap : P.rsaUnwrap sk (P.rsaWrap pk k) = some k)
    (hdec : P.aesDec k iv (P.aesEnc k iv x) = some x) :
    unsealSubmission P (sealSubmission P x k iv pk) sk = some x := by
  simp only [unsealSubmission, sealSubmission, unwrapKey, wrapKey, encryptData,
    decryptData, arrayBufferToBase64, base64ToArrayBuffer]
  rw [b64_roundtrip _ hwrap, hunwrap]
  rw [b64_roundtrip _ hiv, b64_roundtrip _ henc]
  exact hdec

/-- Witness for C6 with concrete toy primitives satisfying the inverse
hypotheses (identity cipher, singleton wrap) and the concrete byte string
"hi!". -/
theorem unseal_seal_roundtrip_witness :
    (∀ b ∈ [1, 2], b < 256) ∧
    (∀ b ∈ (CryptoPrims.mk (fun (_ : Nat) _ d => d) (fun _ _ c => some c)
        (fun (_ : Unit) k => [k]) (fun (_ : Unit) w => some (w.headD 0))
        (fun _ => [])).aesEnc 7 [1, 2] [104, 105, 33], b < 256) ∧
    unsealSubmission
        (CryptoPrims.mk (fun (_ : Nat) _ d => d) (fun _ _ c => some c)
          (fun (_ : Unit) k => [k]) (fun (_ : Unit) w => some (w.headD 0))
          (fun _ => []))
        (sealSubmission
          (CryptoPrims.mk (fun (_ : Nat) _ d => d) (fun _ _ c => some c)
            (fun (_ : Unit) k => [k]) (fun (_ : Unit) w => some (w.headD 0))
            (fun _ => []))
          [104, 105, 33] 7 [1, 2] ()) () = some [104, 105, 33] :=
  ⟨by decide, by decide,
    unseal_seal_roundtrip
      (CryptoPrims.mk (fun (_ : Nat) _ d => d) (fun _ _ c => some c)
        (fun (_ : Unit) k => [k]) (fun (_ : Unit) w => some (w.headD 0))
        (fun _ => []))
      [104, 105, 33] [1, 2] 7 () ()
      (by decide) (by decide) (by decide) rfl rfl⟩

/-- The user-visible outcome of the reviewer's decrypt-and-download handler:
the toast messages raised and the content handed to the browser download. -/
structure DecryptOutcome where
  toasts : List String
  downloaded : Option (List Nat)
deriving DecidableEq

/-- Embedding of `ReviewerDashboard.handleDecryptAndDownload`: unwrap, decrypt, recompute
the hash of the base64 of the decrypted buffer and compare with the stored
`fileHash` — on mismatch an error toast is raised, on match a success toast —
and then, in both cases, build the blob and trigger the download of the
decrypted bytes.  Failures of unwrap/decrypt are caught and nothing is
downloaded. -/
def handleDecryptAndDownload {K PK SK : Type} (P : CryptoPrims K PK SK)
    (project : SealedSubmission) (privateKey : SK) : DecryptOutcome :=
  match unwrapKey P project.encryptedKey privateKey with
  | none => { toasts := ["Decryption failed"], downloaded := none }
  | some aesKey =>
    match decryptData P project.encryptedData project.iv aesKey with
    | none => { toasts := ["Decryption failed"], downloaded := none }
    | some fileBuffer =>
      let decryptedBase64 := arrayBufferToBase64 fileBuffer
      let calculatedHash := hashData P decryptedBase64
      let toast :=
        if calculatedHash ≠ project.fileHash then "Integrity Check Failed! Hash mismatch."
        else "Integrity Verified. File Decrypted."
      { toasts := [toast], downloaded := some fileBuffer }

/-- C3 is a code bug: at a failing input — a stored artifact whose `fileHash`
does not match the digest of the decrypted content — the handler raises the
integrity-failure message as a toast but still delivers the decrypted bytes
to the download, instead of failing the operation.  Evaluated here with
concrete toy primitives: the stored hash "WRONG" differs from the recomputed
hash, yet `downloaded` is the full content. -/
theorem integrity_mismatch_still_downloads :
    handleDecryptAndDownload
        (CryptoPrims.mk (fun (_ : Nat) _ d => d) (fun _ _ c => some c)
          (fun (_ : Unit) k => [k]) (fun (_ : Unit) w => some (w.headD 0))
          (fun _ => []))
        { sealSubmission
            (CryptoPrims.mk (fun (_ : Nat) _ d => d) (fun _ _ c => some c)
              (fun (_ : Unit) k => [k]) (fun (_ : Unit) w => some (w.headD 0))
              (fun _ => []))
            [104, 105] 7 [1] () with fileHash := "WRONG" } () =
      { toasts := ["Integrity Check Failed! Hash mismatch."],
        downloaded := some [104, 105] } := by
  decide

/-! ## Canonical evaluation payload (reviewer and admin dashboards) -/

/-- The canonical payload built at signing time in
`ReviewerDashboard.handleSubmitEvaluation`: the template string
`id:grade:feedback`. -/
def signPayload (submissionId grade feedback : String) : String :=
  submissionId ++ ":" ++ grade ++ ":" ++ feedback

/-- The canonical payload rebuilt at verification time in
`AdminDashboard.handleVerifyAndPublish`: the template string
`id:grading:feedback` over the stored evaluation fields. -/
def verifyPayload (submissionId grading feedback : String) : String :=
  submissionId ++ ":" ++ grading ++ ":" ++ feedback

/-- Splitting at an unambiguous delimiter: when the delimiter does not occur
in either prefix, equal concatenations have equal prefixes and suffixes. -/
theorem colon_split_inj : ∀ (a1 a2 b1 b2 : List Char),
    ':' ∉ a1 → ':' ∉ a2 → a1 ++ ':' :: b1 = a2 ++ ':' :: b2 → a1 = a2 ∧ b1 = b2
  | [], [], b1, b2, _, _, h => by
      simp only [List.nil_append, List.cons.injEq, true_and] at h
      exact ⟨rfl, h⟩
  | [], d :: u, b1, b2, _, h2, h => by
      simp only [List.nil_append, List.cons_append, List.cons.injEq] at h
      simp only [List.mem_cons, not_or] at h2
      exact absurd h.1 h2.1
  | c :: t, [], b1, b2, h1, _, h => by
      simp only [List.cons_append, List.nil_append, List.cons.injEq] at h
      simp only [List.mem_cons, not_or] at h1
      exact absurd h.1.symm h1.1
  | c :: t, d :: u, b1, b2, h1, h2, h => by
      simp only [List.cons_append, List.cons.injEq] at h
      simp only [List.mem_cons, not_or] at h1 h2
      obtain ⟨hab, hcd⟩ := colon_split_inj t u b1 b2 h1.2 h2.2 h.2
      exact ⟨by rw [h.1, hab], hcd⟩

/-- Counterexample for C7: the colon-delimited canonicalization is not
injective over arbitrary strings — the distinct triples `("s", "a:b", "c")`
and `("s:a", "b", "c")` produce the same canonical payload `s:a:b:c`, so a
signature over that payload does not bind one unique triple. -/
theorem payload_not_injective_counterexample :
    signPayload "s" "a:b" "c" = signPayload "s:a" "b" "c" ∧
    (("s", "a:b", "c") : String × String × String) ≠ ("s:a", "b", "c") := by
  constructor
  · decide
  · decide

/-- C7 as amended: the verifier rebuilds exactly the payload built at signing
time for the same stored (submissionId, grade, feedback) triple; and the
canonicalization is injective on the triples the system produces — those
whose submission id and grade contain no ':' delimiter (ids are hexadecimal
object ids, grades come from the fixed A+…F list; the feedback, rightmost
field, may contain colons freely). -/
theorem payload_rebuild_and_injective :
    (∀ id grade feedback : String,
      verifyPayload id grade feedback = signPayload id grade feedback) ∧
    (∀ id1 g1 f1 id2 g2 f2 : String,
      ':' ∉ id1.data → ':' ∉ id2.data → ':' ∉ g1.data → ':' ∉ g2.data →
      signPayload id1 g1 f1 = signPayload id2 g2 f2 →
      id1 = id2 ∧ g1 = g2 ∧ f1 = f2) := by
  constructor
  · intro id grade feedback
    rfl
  · intro id1 g1 f1 id2 g2 f2 h1 h2 h3 h4 heq
    have hdata : id1.data ++ ':' :: (g1.data ++ ':' :: f1.data) =
        id2.data ++ ':' :: (g2.data ++ ':' :: f2.data) := by
      have hd := congrArg String.data heq
      simpa [signPayload, String.data_append, List.append_assoc] using hd
    obtain ⟨hid, hrest⟩ := colon_split_inj _ _ _ _ h1 h2 hdata
    obtain ⟨hg, hf⟩ := colon_split_inj _ _ _ _ h3 h4 hrest
    exact ⟨String.ext hid, String.ext hg, String.ext hf⟩

/-- Witness for the amended C7 at concrete inputs: the verifier payload for a
stored evaluation equals the signing payload, and injectivity applied at a
colon-free id and grade with a colon-carrying feedback. -/
theorem payload_rebuild_and_injective_witness :
    verifyPayload "64adf3" "A" "well done" = signPayload "64adf3" "A" "well done" ∧
    (("64adf3" : String) = "64adf3" ∧ ("A" : String) = "A" ∧
      ("note: tidy up" : String) = "note: tidy up") :=
  ⟨payload_rebuild_and_injective.1 "64adf3" "A" "well done",
   payload_rebuild_and_injective.2 "64adf3" "A" "note: tidy up"
     "64adf3" "A" "note: tidy up"
     (by decide) (by decide) (by decide) (by decide) rfl⟩

end SecureEval
